import Mathlib

/-!
Verification development for the nanomp3 crate.

The crate's public surface lives in src/lib.rs: a `Decoder` wrapping the
inner minimp3 frame decoder, a `Channels` enum, a `FrameInfo` record and the
single operation `Decoder::decode(&mut self, mp3: &[u8], pcm: &mut [f32])
-> (usize, Option<FrameInfo>)`.  That wrapper is translated directly below.

The inner module src/minimp3.rs is not among the available sources (only its
caller is), so the inner frame decoder `mp3dec_decode_frame` is modelled from
the specification: frame synchronisation, header parsing and validation,
frame-length computation from the standard tables, side-information
main_data_begin extraction and the bit-reservoir bookkeeping (accumulate the
frame's main data; a look-back beyond the held history makes the frame
undecodable, producing zero samples while the reservoir still accumulates).
The numeric synthesis pipeline (Huffman data, transforms, PCM sample values)
is outside what the specification pins down numerically and is not modelled;
no claim below depends on PCM sample values.

Byte windows are modelled as `List Nat` (each entry one byte), C integers as
`Int`, Rust panics as an explicit `Fault` error value.
-/

namespace minimp3

/-- Modelled from the spec: the decoded fields of a validated 4-byte frame
header (src/minimp3.rs is missing from the sources).  `version` is the raw
2-bit MPEG version field (3 = MPEG-1, 2 = MPEG-2, 0 = MPEG-2.5), `crcLen`
is the number of CRC bytes following the header (2 when the protection bit
is clear, else 0), `channels` is 1 for mono and 2 otherwise. -/
structure Hdr where
  version : Nat
  crcLen : Nat
  hz : Nat
  bitrateKbps : Nat
  padding : Nat
  channels : Nat
  deriving DecidableEq

/-- Modelled from the spec: the standard MPEG sample-rate table, indexed by
the version field and the 2-bit sample-rate index. -/
def hzOf (version sridx : Nat) : Nat :=
  match version, sridx with
  | 3, 0 => 44100
  | 3, 1 => 48000
  | 3, 2 => 32000
  | 2, 0 => 22050
  | 2, 1 => 24000
  | 2, 2 => 16000
  | 0, 0 => 11025
  | 0, 1 => 12000
  | 0, 2 => 8000
  | _, _ => 0

/-- Modelled from the spec: the standard Layer III bitrate table (kbps),
indexed by the version field and the 4-bit bitrate index. -/
def brOf (version bridx : Nat) : Nat :=
  if version = 3 then
    match bridx with
    | 1 => 32 | 2 => 40 | 3 => 48 | 4 => 56 | 5 => 64 | 6 => 80 | 7 => 96
    | 8 => 112 | 9 => 128 | 10 => 160 | 11 => 192 | 12 => 224 | 13 => 256
    | 14 => 320
    | _ => 0
  else
    match bridx with
    | 1 => 8 | 2 => 16 | 3 => 24 | 4 => 32 | 5 => 40 | 6 => 48 | 7 => 56
    | 8 => 64 | 9 => 80 | 10 => 96 | 11 => 112 | 12 => 128 | 13 => 144
    | 14 => 160
    | _ => 0

/-- Modelled from the spec: frame length in bytes via the standard Layer III
formula (144 resp. 72 times the bitrate in bits per second divided by the
sample rate), plus the padding byte when the padding bit is set. -/
def Hdr.frameLen (h : Hdr) : Nat :=
  (if h.version = 3 then 144000 else 72000) * h.bitrateKbps / h.hz + h.padding

/-- Modelled from the spec: parse and validate the fixed 4-byte header at the
start of the given byte window.  The 11 sync bits must be set, the version
and layer fields must be non-reserved (Layer III only), the bitrate index
must not be a reserved value (0 free-format and 15 are rejected) and the
sample-rate index must not be the reserved value 3. -/
def parseHeader : List Nat → Option Hdr
  | b0 :: b1 :: b2 :: b3 :: _ =>
    let version := b1 >>> 3 &&& 3
    let layer := b1 >>> 1 &&& 3
    let bridx := b2 >>> 4 &&& 15
    let sridx := b2 >>> 2 &&& 3
    if b0 = 255 ∧ b1 &&& 224 = 224 ∧ version ≠ 1 ∧ layer = 1 ∧
        1 ≤ bridx ∧ bridx ≤ 14 ∧ sridx ≤ 2 then
      some { version := version
             crcLen := if b1 &&& 1 = 1 then 0 else 2
             hz := hzOf version sridx
             bitrateKbps := brOf version bridx
             padding := b2 >>> 1 &&& 1
             channels := if b3 >>> 6 &&& 3 = 3 then 1 else 2 }
    else none
  | _ => none

/-- Modelled from the spec: the single-sync heuristic.  When enough trailing
bytes remain to look at the position implied by the computed frame length the
candidate is accepted only if a valid header starts there; with insufficient
trailing bytes the candidate is accepted optimistically. -/
def nextOk (h : Hdr) (w : List Nat) : Bool :=
  if w.length < h.frameLen + 4 then true else (parseHeader (w.drop h.frameLen)).isSome

/-- Modelled from the spec: scan the window for the first acceptable frame
candidate, returning its offset and parsed header.  A valid header whose
computed frame length exceeds the remaining window stops the scan (the
caller must supply more data); an invalid candidate resumes the search from
the next byte. -/
def scanFrame : List Nat → Option (Nat × Hdr)
  | [] => none
  | b :: rest =>
    match parseHeader (b :: rest) with
    | some h =>
      if h.frameLen ≤ (b :: rest).length then
        if nextOk h (b :: rest) then some (0, h)
        else (scanFrame rest).map (fun p => (p.1 + 1, p.2))
      else none
    | none => (scanFrame rest).map (fun p => (p.1 + 1, p.2))

/-- Modelled from the spec: byte size of the fixed side information (fields
listed in the SideInfo data model), 17 or 32 bytes for the MPEG-1 family and
9 or 17 bytes for the lower family, mono versus stereo. -/
def sideInfoBytes (h : Hdr) : Nat :=
  if h.version = 3 then (if h.channels = 1 then 17 else 32)
  else (if h.channels = 1 then 9 else 17)

/-- Modelled from the spec: the frame's byte span inside the window. -/
def frameOf (mp3 : List Nat) (i : Nat) (h : Hdr) : List Nat :=
  (mp3.drop i).take h.frameLen

/-- Modelled from the spec: the frame's main-data region, the frame bytes
after the header, optional CRC and fixed side information. -/
def mainDataOf (mp3 : List Nat) (i : Nat) (h : Hdr) : List Nat :=
  (frameOf mp3 i h).drop (4 + h.crcLen + sideInfoBytes h)

/-- Modelled from the spec: main_data_begin, the first side-information
field: a 9-bit look-back distance for the MPEG-1 family and 8 bits for the
lower family, read from the bytes following header and optional CRC. -/
def mainDataBegin (h : Hdr) (frame : List Nat) : Nat :=
  let s0 := frame.getD (4 + h.crcLen) 0
  let s1 := frame.getD (5 + h.crcLen) 0
  if h.version = 3 then s0 * 2 + s1 / 128 else s0

/-- Modelled from the spec: reservoir capacity, the maximum main_data_begin
range: 511 bytes for the MPEG-1 family, 255 for the lower family. -/
def MAX_RESERVOIR (version : Nat) : Nat :=
  if version = 3 then 511 else 255

/-- Keep the last `n` entries of a list. -/
def lastN (n : Nat) (l : List Nat) : List Nat :=
  l.drop (l.length - n)

/-- Modelled from the spec: decoder state persisted across calls.  The
numeric filterbank and overlap history does not influence any modelled
observable, so the state carries the bit reservoir bytes. -/
structure mp3dec_t where
  reservoir : List Nat
  deriving DecidableEq

/-- Modelled from the spec: the freshly initialised decoder state. -/
def mp3dec_t.new : mp3dec_t := ⟨[]⟩

/-- Modelled from the spec: frame info record filled by the inner decoder,
with C int fields (zero-initialised by default). -/
structure mp3dec_frame_info_t where
  frame_bytes : Int := 0
  channels : Int := 0
  hz : Int := 0
  layer : Int := 0
  bitrate_kbps : Int := 0
  deriving DecidableEq

/-- Modelled from the spec: PCM samples per channel produced by one frame,
1152 for the MPEG-1 family and 576 for the lower family, as the C return
value. -/
def samplesPerFrame (version : Nat) : Int :=
  if version = 3 then 1152 else 576

/-- Natural-number form of `samplesPerFrame`. -/
def spfNat (version : Nat) : Nat :=
  if version = 3 then 1152 else 576

/-- Modelled from the spec: the info record for an accepted frame at offset
`i`: frame_bytes is the full byte span of the decoded frame including any
skipped garbage prefix. -/
def mkInfo (i : Nat) (h : Hdr) : mp3dec_frame_info_t :=
  { frame_bytes := ((i + h.frameLen : Nat) : Int)
    channels := ((h.channels : Nat) : Int)
    hz := ((h.hz : Nat) : Int)
    layer := 3
    bitrate_kbps := ((h.bitrateKbps : Nat) : Int) }

/-- Modelled from the spec: reservoir contents after processing the frame:
the frame's main data is appended to the tail and bytes older than the
capacity bound are discarded. -/
def nextReservoir (st : mp3dec_t) (mp3 : List Nat) (i : Nat) (h : Hdr) : List Nat :=
  lastN (MAX_RESERVOIR h.version) (st.reservoir ++ mainDataOf mp3 i h)

/-- Modelled from the spec: the inner frame decoder of the missing
src/minimp3.rs module.  It locates an acceptable frame, checks that the
main_data_begin look-back is satisfiable from the held reservoir history and
returns the sample count (zero when no frame decodes), the filled info
record and the updated state.  In the reservoir-unsatisfiable case the
frame yields zero samples but the info still carries the frame's byte span
and the reservoir still accumulates the frame's main data. -/
def mp3dec_decode_frame (st : mp3dec_t) (mp3 : List Nat) :
    Int × mp3dec_frame_info_t × mp3dec_t :=
  match scanFrame mp3 with
  | none => (0, {}, st)
  | some (i, h) =>
    if mainDataBegin h (frameOf mp3 i h) ≤ st.reservoir.length then
      (samplesPerFrame h.version, mkInfo i h, ⟨nextReservoir st mp3 i h⟩)
    else
      (0, mkInfo i h, ⟨nextReservoir st mp3 i h⟩)

end minimp3

/-- The minimum length of the PCM output buffer (1152*2, src/lib.rs). -/
def MAX_SAMPLES_PER_FRAME : Nat := 1152 * 2

/-- The core MP3 decoder, wrapping the inner decoder state (src/lib.rs). -/
structure Decoder where
  st : minimp3.mp3dec_t
  deriving DecidableEq

/-- Instantiates a `Decoder` (Decoder::new in src/lib.rs). -/
def Decoder.new : Decoder := ⟨minimp3.mp3dec_t.new⟩

/-- The channel formats that may be encoded in an MP3 frame (src/lib.rs). -/
inductive Channels where
  | Mono
  | Stereo
  deriving DecidableEq

/-- Returns the corresponding number of channels (Channels::num, the Rust
discriminants Mono = 1, Stereo = 2 cast to u8). -/
def Channels.num : Channels → Nat
  | .Mono => 1
  | .Stereo => 2

/-- Information about the frame decoded by `Decoder.decode` (src/lib.rs). -/
structure FrameInfo where
  samples_produced : Nat
  channels : Channels
  sample_rate : Nat
  bitrate : Nat
  deriving DecidableEq

/-- Abort outcomes of `Decoder.decode`: the pcm-length assertion, a failed
`try_into().unwrap()` conversion, and the unreachable channels arm. -/
inductive Fault where
  | pcmTooSmall
  | intoConversion
  | unreachableChannels
  deriving DecidableEq

/-- Conversion of a C int to an unsigned machine integer as performed by
`try_into()`: succeeds exactly on non-negative values. -/
def tryIntoNat (n : Int) : Option Nat :=
  if 0 ≤ n then some n.toNat else none

/-- Decode MP3 data (Decoder::decode in src/lib.rs).  Asserts the pcm buffer
length, calls the inner frame decoder, and on a nonzero sample count builds
the `FrameInfo` through checked conversions with the channels match mapping
1 to Mono, 2 to Stereo and anything else to the unreachable arm; on a zero
sample count returns `(0, none)`. -/
def Decoder.decode (d : Decoder) (mp3 : List Nat) (pcm : List Float) :
    Except Fault ((Nat × Option FrameInfo) × Decoder) :=
  if pcm.length < MAX_SAMPLES_PER_FRAME then
    Except.error Fault.pcmTooSmall
  else
    let r := minimp3.mp3dec_decode_frame d.st mp3
    let samples := r.1
    let info := r.2.1
    if samples ≠ 0 then
      match tryIntoNat info.frame_bytes, tryIntoNat samples,
          tryIntoNat info.hz, tryIntoNat info.bitrate_kbps with
      | some fb, some sp, some hz, some br =>
        if info.channels = 1 then
          Except.ok ((fb, some { samples_produced := sp, channels := Channels.Mono,
                                 sample_rate := hz, bitrate := br }), ⟨r.2.2⟩)
        else if info.channels = 2 then
          Except.ok ((fb, some { samples_produced := sp, channels := Channels.Stereo,
                                 sample_rate := hz, bitrate := br }), ⟨r.2.2⟩)
        else
          Except.error Fault.unreachableChannels
      | _, _, _, _ => Except.error Fault.intoConversion
    else
      Except.ok ((0, none), ⟨r.2.2⟩)

/-- Default instance for `Decoder` (impl Default in src/lib.rs). -/
def Decoder.default : Decoder := Decoder.new

/-- Run a sequence of decode calls threading the decoder state, collecting
the `(bytes_consumed, frame_info)` results; an abort ends the run. -/
def decodeSeq : Decoder → List (List Nat × List Float) → List (Nat × Option FrameInfo)
  | _, [] => []
  | d, (mp3, pcm) :: rest =>
    match d.decode mp3 pcm with
    | Except.ok (out, d2) => out :: decodeSeq d2 rest
    | Except.error _ => []

/-- The standard MPEG sample-rate set. -/
def standardRates : List Nat :=
  [8000, 11025, 12000, 16000, 22050, 24000, 32000, 44100, 48000]

/-- Statement of the no-input-buffering contract: after a successful call
every byte held in the decoder state was already held before the call or
lies in the consumed prefix of the window. -/
def NoInputBuffering : Prop :=
  ∀ (d : Decoder) (mp3 : List Nat) (pcm : List Float)
    (r : (Nat × Option FrameInfo) × Decoder),
    d.decode mp3 pcm = Except.ok r →
    ∀ b ∈ r.2.st.reservoir, b ∈ d.st.reservoir ∨ b ∈ mp3.take r.1.1

/-- A pcm buffer of exactly the minimum required length. -/
def pcm2304 : List Float := List.replicate MAX_SAMPLES_PER_FRAME 0

/-- A synthetic 24-byte frame: MPEG-2 Layer III, 8 kbps, 24000 Hz, mono,
no CRC, no padding, main_data_begin zero and all-zero main data. -/
def goodFrame : List Nat := 255 :: 243 :: 20 :: 192 :: List.replicate 20 0

/-- The same frame with main_data_begin 5, unsatisfiable on a fresh
decoder whose reservoir is empty. -/
def skipFrame : List Nat := 255 :: 243 :: 20 :: 192 :: 5 :: List.replicate 19 0

/-- The parsed header of `goodFrame` and `skipFrame`. -/
def hdrC : minimp3.Hdr :=
  { version := 2, crcLen := 0, hz := 24000, bitrateKbps := 8, padding := 0,
    channels := 1 }

/-- The frame info `goodFrame` decodes to. -/
def gfi : FrameInfo :=
  { samples_produced := 576, channels := Channels.Mono, sample_rate := 24000,
    bitrate := 8 }

/-- The decoder state after absorbing one synthetic frame's main data. -/
def dAfter : Decoder := ⟨⟨List.replicate 11 0⟩⟩

/-- The full result value `goodFrame` decodes to on a fresh decoder. -/
def goodResult : (Nat × Option FrameInfo) × Decoder :=
  ((0 + hdrC.frameLen,
    some { samples_produced := minimp3.spfNat hdrC.version,
           channels := if hdrC.channels = 1 then Channels.Mono else Channels.Stereo,
           sample_rate := hdrC.hz, bitrate := hdrC.bitrateKbps }),
   ⟨⟨minimp3.nextReservoir Decoder.new.st goodFrame 0 hdrC⟩⟩)

open minimp3

theorem hzOf_mem {v s : Nat} (hv3 : v ≤ 3) (hv1 : v ≠ 1) (hs : s ≤ 2) :
    hzOf v s ∈ standardRates := by
  interval_cases v
  · interval_cases s <;> decide
  · exact absurd rfl hv1
  · interval_cases s <;> decide
  · interval_cases s <;> decide

theorem brOf_ge (v : Nat) {b : Nat} (h1 : 1 ≤ b) (h14 : b ≤ 14) :
    8 ≤ brOf v b := by
  unfold brOf
  split <;> interval_cases b <;> decide

theorem rate_bounds : ∀ x ∈ standardRates, 0 < x ∧ x ≤ 48000 := by decide

theorem frameLen_pos {h : Hdr} (hhz : h.hz ∈ standardRates)
    (hbr : 8 ≤ h.bitrateKbps) : 0 < h.frameLen := by
  obtain ⟨hp, hle⟩ := rate_bounds h.hz hhz
  have hq : 0 < (if h.version = 3 then 144000 else 72000) * h.bitrateKbps / h.hz := by
    apply Nat.div_pos _ hp
    split <;> omega
  unfold Hdr.frameLen
  exact Nat.lt_of_lt_of_le hq (Nat.le_add_right _ _)

theorem parseHeader_inv {bs : List Nat} {h : Hdr} (hp : parseHeader bs = some h) :
    h.hz ∈ standardRates ∧ (h.channels = 1 ∨ h.channels = 2) ∧ 8 ≤ h.bitrateKbps := by
  match bs, hp with
  | b0 :: b1 :: b2 :: b3 :: rest, hp =>
    simp only [parseHeader] at hp
    split at hp
    · rename_i hc
      obtain ⟨h255, hsync, hv1, hlay, hb1, hb14, hsr⟩ := hc
      injection hp with hp
      subst hp
      refine ⟨hzOf_mem Nat.and_le_right hv1 hsr, ?_, brOf_ge _ hb1 hb14⟩
      dsimp only
      split
      · exact Or.inl rfl
      · exact Or.inr rfl
    · exact absurd hp (by simp)

theorem scanFrame_inv : ∀ (w : List Nat) {i : Nat} {h : Hdr},
    scanFrame w = some (i, h) →
    (∃ bs, parseHeader bs = some h) ∧ i + h.frameLen ≤ w.length := by
  intro w
  induction w with
  | nil => intro i h hs; simp [scanFrame] at hs
  | cons b rest ih =>
    intro i h hs
    simp only [scanFrame] at hs
    cases hph : parseHeader (b :: rest) with
    | some h0 =>
      simp only [hph] at hs
      split at hs
      · rename_i hlen
        split at hs
        · injection hs with hs
          injection hs with hs1 hs2
          subst hs1
          subst hs2
          exact ⟨⟨b :: rest, hph⟩, by simpa using hlen⟩
        · rw [Option.map_eq_some'] at hs
          obtain ⟨⟨j, h2⟩, hrec, hmap⟩ := hs
          injection hmap with hm1 hm2
          subst hm1
          subst hm2
          obtain ⟨hex, hlen2⟩ := ih hrec
          refine ⟨hex, ?_⟩
          simp only [List.length_cons]
          omega
      · exact absurd hs (by simp)
    | none =>
      simp only [hph] at hs
      rw [Option.map_eq_some'] at hs
      obtain ⟨⟨j, h2⟩, hrec, hmap⟩ := hs
      injection hmap with hm1 hm2
      subst hm1
      subst hm2
      obtain ⟨hex, hlen2⟩ := ih hrec
      refine ⟨hex, ?_⟩
      simp only [List.length_cons]
      omega

theorem tryIntoNat_natCast (n : Nat) : tryIntoNat ((n : Nat) : Int) = some n := by
  simp [tryIntoNat]

theorem tryIntoNat_addCast (a b : Nat) :
    tryIntoNat ((a : Int) + (b : Int)) = some (a + b) := by
  rw [← Nat.cast_add]
  exact tryIntoNat_natCast (a + b)

theorem samplesPerFrame_ne (v : Nat) : samplesPerFrame v ≠ 0 := by
  unfold samplesPerFrame
  split <;> decide

theorem tryIntoNat_spf (v : Nat) :
    tryIntoNat (samplesPerFrame v) = some (spfNat v) := by
  unfold samplesPerFrame spfNat tryIntoNat
  split <;> decide

theorem decode_small (d : Decoder) (mp3 : List Nat) (pcm : List Float)
    (hp : pcm.length < MAX_SAMPLES_PER_FRAME) :
    d.decode mp3 pcm = Except.error Fault.pcmTooSmall := by
  simp [Decoder.decode, hp]

theorem decode_none (d : Decoder) (mp3 : List Nat) (pcm : List Float)
    (hp : MAX_SAMPLES_PER_FRAME ≤ pcm.length) (hs : scanFrame mp3 = none) :
    d.decode mp3 pcm = Except.ok ((0, none), ⟨d.st⟩) := by
  have hinner : mp3dec_decode_frame d.st mp3 = (0, {}, d.st) := by
    simp [mp3dec_decode_frame, hs]
  simp [Decoder.decode, hinner, Nat.not_lt.mpr hp]

theorem decode_skip (d : Decoder) (mp3 : List Nat) (pcm : List Float)
    (i : Nat) (h : Hdr) (hp : MAX_SAMPLES_PER_FRAME ≤ pcm.length)
    (hs : scanFrame mp3 = some (i, h))
    (hres : d.st.reservoir.length < mainDataBegin h (frameOf mp3 i h)) :
    d.decode mp3 pcm = Except.ok ((0, none), ⟨⟨nextReservoir d.st mp3 i h⟩⟩) := by
  have hinner : mp3dec_decode_frame d.st mp3 =
      (0, mkInfo i h, ⟨nextReservoir d.st mp3 i h⟩) := by
    simp [mp3dec_decode_frame, hs, Nat.not_le.mpr hres]
  simp [Decoder.decode, hinner, Nat.not_lt.mpr hp]

theorem decode_succ (d : Decoder) (mp3 : List Nat) (pcm : List Float)
    (i : Nat) (h : Hdr) (hp : MAX_SAMPLES_PER_FRAME ≤ pcm.length)
    (hs : scanFrame mp3 = some (i, h)) (hch : h.channels = 1 ∨ h.channels = 2)
    (hres : mainDataBegin h (frameOf mp3 i h) ≤ d.st.reservoir.length) :
    d.decode mp3 pcm = Except.ok ((i + h.frameLen,
      some { samples_produced := spfNat h.version,
             channels := if h.channels = 1 then Channels.Mono else Channels.Stereo,
             sample_rate := h.hz, bitrate := h.bitrateKbps }),
      ⟨⟨nextReservoir d.st mp3 i h⟩⟩) := by
  have hinner : mp3dec_decode_frame d.st mp3 =
      (samplesPerFrame h.version, mkInfo i h, ⟨nextReservoir d.st mp3 i h⟩) := by
    simp [mp3dec_decode_frame, hs, hres]
  rcases hch with hc | hc <;>
    simp [Decoder.decode, hinner, Nat.not_lt.mpr hp, samplesPerFrame_ne,
      tryIntoNat_spf, mkInfo, tryIntoNat_natCast, tryIntoNat_addCast, hc]

theorem decode_total (d : Decoder) (mp3 : List Nat) (pcm : List Float)
    (hp : MAX_SAMPLES_PER_FRAME ≤ pcm.length) :
    ∃ r, d.decode mp3 pcm = Except.ok r := by
  cases hscan : scanFrame mp3 with
  | none => exact ⟨_, decode_none d mp3 pcm hp hscan⟩
  | some p =>
    obtain ⟨i, h⟩ := p
    obtain ⟨⟨bs, hbs⟩, _⟩ := scanFrame_inv mp3 hscan
    obtain ⟨_, hch, _⟩ := parseHeader_inv hbs
    by_cases hres : mainDataBegin h (frameOf mp3 i h) ≤ d.st.reservoir.length
    · exact ⟨_, decode_succ d mp3 pcm i h hp hscan hch hres⟩
    · exact ⟨_, decode_skip d mp3 pcm i h hp hscan (Nat.not_le.mp hres)⟩

theorem decode_ok_inv (d : Decoder) (mp3 : List Nat) (pcm : List Float)
    (r : (Nat × Option FrameInfo) × Decoder)
    (hok : d.decode mp3 pcm = Except.ok r) :
    r.1 = (0, none) ∨
    ∃ i h, scanFrame mp3 = some (i, h) ∧ (∃ bs, parseHeader bs = some h) ∧
      r = ((i + h.frameLen,
        some { samples_produced := spfNat h.version,
               channels := if h.channels = 1 then Channels.Mono else Channels.Stereo,
               sample_rate := h.hz, bitrate := h.bitrateKbps }),
        ⟨⟨nextReservoir d.st mp3 i h⟩⟩) := by
  by_cases hp : pcm.length < MAX_SAMPLES_PER_FRAME
  · rw [decode_small d mp3 pcm hp] at hok
    exact Except.noConfusion hok
  · have hp2 : MAX_SAMPLES_PER_FRAME ≤ pcm.length := Nat.not_lt.mp hp
    cases hscan : scanFrame mp3 with
    | none =>
      rw [decode_none d mp3 pcm hp2 hscan] at hok
      injection hok with hok
      subst hok
      exact Or.inl rfl
    | some p =>
      obtain ⟨i, h⟩ := p
      obtain ⟨⟨bs, hbs⟩, hlen⟩ := scanFrame_inv mp3 hscan
      obtain ⟨hhz, hch, hbr⟩ := parseHeader_inv hbs
      by_cases hres : mainDataBegin h (frameOf mp3 i h) ≤ d.st.reservoir.length
      · rw [decode_succ d mp3 pcm i h hp2 hscan hch hres] at hok
        injection hok with hok
        subst hok
        exact Or.inr ⟨i, h, rfl, ⟨bs, hbs⟩, rfl⟩
      · rw [decode_skip d mp3 pcm i h hp2 hscan (Nat.not_le.mp hres)] at hok
        injection hok with hok
        subst hok
        exact Or.inl rfl

theorem decode_zero_iff (d : Decoder) (mp3 : List Nat) (pcm : List Float)
    (r : (Nat × Option FrameInfo) × Decoder)
    (hok : d.decode mp3 pcm = Except.ok r) :
    r.1.1 = 0 ↔ r.1.2 = none := by
  rcases decode_ok_inv d mp3 pcm r hok with h0 | ⟨i, h, hscan, ⟨bs, hbs⟩, hr⟩
  · rw [h0]
    simp
  · obtain ⟨hhz, _, hbr⟩ := parseHeader_inv hbs
    have hpos : 0 < h.frameLen := frameLen_pos hhz hbr
    rw [hr]
    simp
    omega

theorem take_drop_aux {α : Type} (i L : Nat) (l : List α) :
    (l.drop i).take L = (l.take (i + L)).drop i := by
  induction l generalizing i with
  | nil => simp
  | cons a t ih =>
    cases i with
    | zero => simp
    | succ j => simpa [Nat.succ_add] using ih j

theorem nextReservoir_sub (st : mp3dec_t) (mp3 : List Nat) (i : Nat) (h : Hdr) :
    ∀ b ∈ nextReservoir st mp3 i h,
      b ∈ st.reservoir ∨ b ∈ mp3.take (i + h.frameLen) := by
  intro b hb
  simp only [nextReservoir, lastN] at hb
  have hb2 : b ∈ st.reservoir ++ mainDataOf mp3 i h := List.drop_subset _ _ hb
  rcases List.mem_append.mp hb2 with h1 | h2
  · exact Or.inl h1
  · right
    simp only [mainDataOf] at h2
    have h3 : b ∈ frameOf mp3 i h := List.drop_subset _ _ h2
    rw [frameOf, take_drop_aux] at h3
    exact List.drop_subset _ _ h3

theorem pcm2304_len : MAX_SAMPLES_PER_FRAME ≤ pcm2304.length := by
  simp [pcm2304]

theorem channels_num_cases (c : Channels) : c.num = 1 ∨ c.num = 2 := by
  cases c
  · exact Or.inl rfl
  · exact Or.inr rfl

theorem good_decode : Decoder.new.decode goodFrame pcm2304 = Except.ok goodResult :=
  decode_succ Decoder.new goodFrame pcm2304 0 hdrC pcm2304_len (by decide)
    (by decide) (by decide)

/-- C1: for every input window, output buffer and decoder state, a decode
call that returns (no abort) yields bytes_consumed = 0 exactly when the
returned frame_info is absent. -/
theorem decode_consumed_zero_iff_absent (d : Decoder) (mp3 : List Nat)
    (pcm : List Float) (r : (Nat × Option FrameInfo) × Decoder)
    (hok : d.decode mp3 pcm = Except.ok r) :
    r.1.1 = 0 ↔ r.1.2 = none :=
  decode_zero_iff d mp3 pcm r hok

/-- C1 witness: the iff instantiated at an empty window on a fresh decoder. -/
theorem decode_consumed_zero_iff_absent_witness :
    ((0 : Nat) = 0 ↔ (none : Option FrameInfo) = none) :=
  decode_consumed_zero_iff_absent Decoder.new [] pcm2304 ((0, none), Decoder.new)
    (decode_none Decoder.new [] pcm2304 pcm2304_len rfl)

/-- C2 counterexample: the claimed outcome, bytes_consumed positive together
with an absent frame_info, is impossible for every window, buffer and
decoder state: the wrapper collapses every zero-sample inner result to
(0, none). -/
theorem no_positive_consumed_without_frame :
    ¬ ∃ (mp3 : List Nat) (pcm : List Float) (d : Decoder)
        (r : (Nat × Option FrameInfo) × Decoder),
        d.decode mp3 pcm = Except.ok r ∧ 0 < r.1.1 ∧ r.1.2 = none := by
  rintro ⟨mp3, pcm, d, r, hok, hpos, hnone⟩
  have hiff := decode_zero_iff d mp3 pcm r hok
  have hzero := hiff.mpr hnone
  omega

/-- C2 (amended): in the reservoir-unsatisfiable case (a frame is located
but main_data_begin looks back past the held reservoir history) decode
returns bytes_consumed = 0 with absent frame_info: the skipped span is not
reported, while the decoder state still accumulates the frame's main data
into the reservoir. -/
theorem reservoir_skip_returns_zero (d : Decoder) (mp3 : List Nat)
    (pcm : List Float) (i : Nat) (h : minimp3.Hdr)
    (hp : MAX_SAMPLES_PER_FRAME ≤ pcm.length)
    (hs : minimp3.scanFrame mp3 = some (i, h))
    (hres : d.st.reservoir.length < minimp3.mainDataBegin h (minimp3.frameOf mp3 i h)) :
    d.decode mp3 pcm =
      Except.ok ((0, none), ⟨⟨minimp3.nextReservoir d.st mp3 i h⟩⟩) :=
  decode_skip d mp3 pcm i h hp hs hres

/-- C2 witness: the synthetic frame with main_data_begin 5 on a fresh
decoder takes the reservoir-unsatisfiable path and returns (0, none). -/
theorem reservoir_skip_returns_zero_witness :
    Decoder.new.decode skipFrame pcm2304 =
      Except.ok ((0, none),
        ⟨⟨minimp3.nextReservoir Decoder.new.st skipFrame 0 hdrC⟩⟩) :=
  reservoir_skip_returns_zero Decoder.new skipFrame pcm2304 0 hdrC pcm2304_len
    (by decide) (by decide)

/-- C3: a pcm buffer shorter than MAX_SAMPLES_PER_FRAME makes decode abort
with the pcm-length assertion for every window and state, and a buffer of
at least that length never takes this abort branch. -/
theorem decode_pcm_precondition (d : Decoder) (mp3 : List Nat) (pcm : List Float) :
    (pcm.length < MAX_SAMPLES_PER_FRAME →
      d.decode mp3 pcm = Except.error Fault.pcmTooSmall) ∧
    (MAX_SAMPLES_PER_FRAME ≤ pcm.length →
      d.decode mp3 pcm ≠ Except.error Fault.pcmTooSmall) := by
  constructor
  · exact decode_small d mp3 pcm
  · intro hp hcontra
    obtain ⟨r, hr⟩ := decode_total d mp3 pcm hp
    rw [hr] at hcontra
    exact Except.noConfusion hcontra

/-- C3 witness: the empty pcm buffer triggers the assertion abort. -/
theorem decode_pcm_precondition_witness :
    Decoder.new.decode [] [] = Except.error Fault.pcmTooSmall :=
  (decode_pcm_precondition Decoder.new [] []).1 (by decide)

/-- C4: the consumed byte count never exceeds the window length. -/
theorem decode_consumed_le_window (d : Decoder) (mp3 : List Nat)
    (pcm : List Float) (r : (Nat × Option FrameInfo) × Decoder)
    (hok : d.decode mp3 pcm = Except.ok r) :
    r.1.1 ≤ mp3.length := by
  rcases decode_ok_inv d mp3 pcm r hok with h0 | ⟨i, h, hscan, hex, hr⟩
  · simp [h0]
  · obtain ⟨-, hlen⟩ := scanFrame_inv mp3 hscan
    rw [hr]
    simpa using hlen

/-- C4 witness: the synthetic good frame consumes its full 24-byte span,
within the window length. -/
theorem decode_consumed_le_window_witness : goodResult.1.1 ≤ goodFrame.length :=
  decode_consumed_le_window Decoder.new goodFrame pcm2304 goodResult good_decode

/-- C5: decoding is deterministic: two runs from freshly constructed
decoders over the same sequence of decode calls produce identical
consumed-byte counts and frame infos (the embedding of the decoder is a
pure function: the Rust code has no I/O, no global state and no other
source of nondeterminism). -/
theorem decode_deterministic (ins1 ins2 : List (List Nat × List Float))
    (hsame : ins1 = ins2) :
    decodeSeq Decoder.new ins1 = decodeSeq Decoder.new ins2 := by
  rw [hsame]

/-- C5 witness: two identical one-call runs agree. -/
theorem decode_deterministic_witness :
    decodeSeq Decoder.new [([42], pcm2304)] =
      decodeSeq Decoder.new [([42], pcm2304)] :=
  decode_deterministic [([42], pcm2304)] [([42], pcm2304)] rfl

/-- C6: whenever decode returns frame info, the channel count is 1 (Mono)
or 2 (Stereo) and the sample rate is one of the standard MPEG rates; the
statement quantifies over every input window, so it covers arbitrary noise
input. -/
theorem decode_frame_info_ranges (d : Decoder) (mp3 : List Nat)
    (pcm : List Float) (r : (Nat × Option FrameInfo) × Decoder)
    (fi : FrameInfo) (hok : d.decode mp3 pcm = Except.ok r)
    (hfi : r.1.2 = some fi) :
    (fi.channels.num = 1 ∨ fi.channels.num = 2) ∧
      fi.sample_rate ∈ standardRates := by
  rcases decode_ok_inv d mp3 pcm r hok with h0 | ⟨i, h, hscan, ⟨bs, hbs⟩, hr⟩
  · rw [h0] at hfi
    exact absurd hfi (by simp)
  · obtain ⟨hhz, hch, hbr⟩ := parseHeader_inv hbs
    rw [hr] at hfi
    simp only [Option.some.injEq] at hfi
    subst hfi
    exact ⟨channels_num_cases _, hhz⟩

/-- C6 witness: the synthetic good frame yields Mono (1 channel) at the
standard rate 24000 Hz. -/
theorem decode_frame_info_ranges_witness :
    (gfi.channels.num = 1 ∨ gfi.channels.num = 2) ∧
      gfi.sample_rate ∈ standardRates :=
  decode_frame_info_ranges Decoder.new goodFrame pcm2304 goodResult gfi
    good_decode rfl

/-- C8 counterexample: the no-input-buffering contract fails: decoding the
reservoir-unsatisfiable frame returns bytes_consumed = 0 (so the whole
window is the unconsumed suffix) yet the decoder state now holds the
frame's main-data bytes taken from that window. -/
theorem input_buffering_refuted : ¬ NoInputBuffering := by
  intro hnb
  have hdec : Decoder.new.decode skipFrame pcm2304 =
      Except.ok ((0, none),
        ⟨⟨minimp3.nextReservoir Decoder.new.st skipFrame 0 hdrC⟩⟩) :=
    decode_skip Decoder.new skipFrame pcm2304 0 hdrC pcm2304_len
      (by decide) (by decide)
  have hmem := hnb Decoder.new skipFrame pcm2304 _ hdec 0 (by decide)
  rcases hmem with h1 | h2
  · exact absurd h1 (by decide)
  · exact absurd h2 (by decide)

/-- C8 (amended): the input window itself is never mutated (the embedded
decode is a pure function of it), and the decoder state buffers only bytes
lying inside the located frame's span, a prefix of length at most the
window length; when a frame is reported that span equals bytes_consumed,
but in the reservoir-unsatisfiable case the located frame's main data is
buffered even though bytes_consumed is 0, so the state may hold bytes of
the unconsumed window. -/
theorem decode_buffers_only_scanned_span (d : Decoder) (mp3 : List Nat)
    (pcm : List Float) (r : (Nat × Option FrameInfo) × Decoder)
    (hok : d.decode mp3 pcm = Except.ok r) :
    ∃ k, k ≤ mp3.length ∧
      (∀ b ∈ r.2.st.reservoir, b ∈ d.st.reservoir ∨ b ∈ mp3.take k) ∧
      (∀ fi, r.1.2 = some fi → k = r.1.1) := by
  by_cases hp : pcm.length < MAX_SAMPLES_PER_FRAME
  · rw [decode_small d mp3 pcm hp] at hok
    exact Except.noConfusion hok
  · have hp2 : MAX_SAMPLES_PER_FRAME ≤ pcm.length := Nat.not_lt.mp hp
    cases hscan : scanFrame mp3 with
    | none =>
      rw [decode_none d mp3 pcm hp2 hscan] at hok
      injection hok with hok
      subst hok
      refine ⟨0, Nat.zero_le _, ?_, ?_⟩
      · intro b hb
        exact Or.inl hb
      · intro fi hfi
        exact absurd hfi (by simp)
    | some p =>
      obtain ⟨i, h⟩ := p
      obtain ⟨⟨bs, hbs⟩, hlen⟩ := scanFrame_inv mp3 hscan
      obtain ⟨hhz, hch, hbr⟩ := parseHeader_inv hbs
      by_cases hres : mainDataBegin h (frameOf mp3 i h) ≤ d.st.reservoir.length
      · rw [decode_succ d mp3 pcm i h hp2 hscan hch hres] at hok
        injection hok with hok
        subst hok
        exact ⟨i + h.frameLen, hlen, nextReservoir_sub d.st mp3 i h,
          fun fi _ => rfl⟩
      · rw [decode_skip d mp3 pcm i h hp2 hscan (Nat.not_le.mp hres)] at hok
        injection hok with hok
        subst hok
        refine ⟨i + h.frameLen, hlen, nextReservoir_sub d.st mp3 i h, ?_⟩
        intro fi hfi
        exact absurd hfi (by simp)

/-- C8 witness: the amended bound instantiated at the synthetic good
frame. -/
theorem decode_buffers_only_scanned_span_witness :
    ∃ k, k ≤ goodFrame.length ∧
      (∀ b ∈ goodResult.2.st.reservoir,
        b ∈ Decoder.new.st.reservoir ∨ b ∈ goodFrame.take k) ∧
      (∀ fi, goodResult.1.2 = some fi → k = goodResult.1.1) :=
  decode_buffers_only_scanned_span Decoder.new goodFrame pcm2304 goodResult
    good_decode

/-- C9: with a pcm buffer of sufficient length decode always returns a
value: on the successful branch every checked conversion receives a
non-negative value and the channel count is 1 or 2, so no partial
operation aborts. -/
theorem decode_success_no_abort (d : Decoder) (mp3 : List Nat)
    (pcm : List Float) (hp : MAX_SAMPLES_PER_FRAME ≤ pcm.length) :
    ∃ r, d.decode mp3 pcm = Except.ok r :=
  decode_total d mp3 pcm hp

/-- C9 witness: the synthetic good frame decodes without abort. -/
theorem decode_success_no_abort_witness :
    ∃ r, Decoder.new.decode goodFrame pcm2304 = Except.ok r :=
  decode_success_no_abort Decoder.new goodFrame pcm2304 pcm2304_len

/-- C10: Decoder.default is definitionally Decoder.new, so any decode run
started from either yields identical results. -/
theorem default_eq_new :
    Decoder.default = Decoder.new ∧
      ∀ ins, decodeSeq Decoder.default ins = decodeSeq Decoder.new ins :=
  ⟨rfl, fun _ => rfl⟩
